import Mathlib

/-!
Verification of the ClinicBot availability and reservation engine.

The definitions below are a shallow embedding of the scheduling core:

* `app/services/slot_engine.py` — `generate_free_slots_for_day`,
  `reserve_consecutive_slots`, `_get_timing_for_day`,
  `_get_time_blocks_for_day`, `parse_hm`, `localize_dt`, `utc_ts`;
* `app/api/v1/appointments.py` — `book_appointment` (conflict query and
  insert), `cancel_appointment`, `mark_completed`, `mark_no_show`;
* `app/api/v1/slots.py` — the shape of the configuration dictionary built
  by `_build_clinic_config` (slot interval, buffer, closed dates).

Modelling conventions:

* Python `"HH:MM"` strings are represented by their parsed value in
  minutes after local midnight (`parse_hm` composed with the string is the
  identity on that value, so nothing is lost).
* A `datetime.date` is represented by its observable attributes used in
  the engine: the day number since the epoch, the weekday name, and its
  two formatted strings.
* `pytz` localization for the fixed-offset zones used by the clinics
  (for example Asia/Kolkata, +330 minutes, no daylight saving) is an
  affine map: `utc_ts` of a local minute `m` on day `d` with offset `off`
  is `60 * (1440 * d.epochDay + m - off)` seconds.
* `uuid.uuid4().hex[:6]` draws from the process RNG; the embedding makes
  that hidden input explicit as a supply `u : Nat → String` indexed by
  emission order, so determinism questions become dependence on `u`.
* The `while` loop of the slot generator is embedded with explicit fuel
  `e + 1 - c`; each iteration advances the cursor by `i + b ≥ 1` minutes,
  so this fuel is exact whenever `0 < i + b`.  (When `i + b = 0` and the
  guard holds the Python loop does not terminate; the embedding returns
  the slots emitted so far.  No claim touches that configuration.)
* Database rows are lists of records; SQLAlchemy `.first()` on the
  conflict query is `List.find?` over the table in insertion order.
-/

/-- A lunch break entry of the timing dictionary (`lunch_break` key). -/
structure Lunch where
  enabled : Bool
  lstart : Nat
  lend : Nat
deriving DecidableEq

/-- One timing entry (`weekdays` or `saturday` value) of the clinic timing
dictionary: `closed` flag (absent means false on the engine side), start
and end of the open interval in minutes, optional lunch break. -/
structure DayTiming where
  closed : Bool := false
  startMin : Nat
  endMin : Nat
  lunchBreak : Option Lunch := none
deriving DecidableEq

/-- The `clinic_timing` dictionary built by `_build_clinic_config`:
`weekdays`, optional `saturday` override, `sunday_closed` flag (default
true on lookup), and the `closed_dates` list of `YYYY-MM-DD` strings. -/
structure ClinicTimingCfg where
  weekdays : Option DayTiming
  saturday : Option DayTiming := none
  sundayClosed : Bool := true
  closedDates : List String := []
deriving DecidableEq

/-- Weekday name, the value of `target_date.strftime("%A").lower()`. -/
inductive Weekday
  | monday | tuesday | wednesday | thursday | friday | saturday | sunday
deriving DecidableEq

/-- A calendar date by its attributes the engine reads: day number since
the epoch, weekday name, and its two formatted strings (`%Y-%m-%d` and
`%Y%m%d`). -/
structure CalDate where
  epochDay : Int
  weekday : Weekday
  ymd : String
  ymdCompact : String
deriving DecidableEq

/-- The `appointment_config` dictionary (`_build_clinic_config` fills it
with interval 15, 4 slots per hour, buffer 5). -/
structure ApptCfg where
  slotIntervalMins : Option Nat := none
  slotsPerHour : Nat := 4
  bufferMins : Nat := 0
deriving DecidableEq

/-- A doctor entry of the configuration; only the `id` key is read by the
slot engine. -/
structure DoctorCfg where
  id : String
deriving DecidableEq

/-- The configuration dictionary passed to `generate_free_slots_for_day`. -/
structure ClinicConfig where
  timezoneOffsetMin : Int
  clinicTiming : ClinicTimingCfg
  appointmentConfig : ApptCfg
  doctors : List DoctorCfg
deriving DecidableEq

/-- An existing appointment as handed to the slot engine (doctor id plus
UTC start and end timestamps in seconds). -/
structure ApptIn where
  doctorId : String
  startUtcTs : Int
  endUtcTs : Int
deriving DecidableEq

/-- A generated free slot dictionary.  `startLocalMin`/`endLocalMin` carry
the local-time labels (`start_local`/`end_local`); for a fixed date and
offset the formatted string is determined by, and determines, this
minute value. -/
structure Slot where
  slotId : String
  doctorId : String
  startLocalMin : Nat
  endLocalMin : Nat
  startUtcTs : Int
  endUtcTs : Int
  durationMins : Nat
  available : Bool := true
deriving DecidableEq

instance : Inhabited Slot :=
  ⟨{ slotId := "", doctorId := "", startLocalMin := 0, endLocalMin := 0,
     startUtcTs := 0, endUtcTs := 0, durationMins := 0 }⟩

/-- `_get_timing_for_day` of `slot_engine.py` (lines 152-159): Sunday is
closed unless `sunday_closed` is false, Saturday uses its own entry with
`closed` defaulting to true when the entry is missing, all other days use
the `weekdays` entry. -/
def get_timing_for_day (ct : ClinicTimingCfg) (day : Weekday) : Option DayTiming :=
  match day with
  | .sunday => if ct.sundayClosed then none else ct.weekdays
  | .saturday =>
    let sat := ct.saturday.getD { closed := true, startMin := 0, endMin := 0 }
    if sat.closed then none else some sat
  | _ => ct.weekdays

/-- `_get_time_blocks_for_day` (lines 162-178): split the open interval on
the lunch break when it is enabled, keeping `(start, min lstart end)` when
`start < lstart` and `(max lend start, end)` when `lend < end`. -/
def get_time_blocks_for_day (t : DayTiming) : List (Nat × Nat) :=
  match t.lunchBreak with
  | some l =>
    if l.enabled then
      (if t.startMin < l.lstart then [(t.startMin, min l.lstart t.endMin)] else []) ++
      (if l.lend < t.endMin then [(max l.lend t.startMin, t.endMin)] else [])
    else [(t.startMin, t.endMin)]
  | none => [(t.startMin, t.endMin)]

/-- Line 55 of the engine: `slot_interval_mins or (60 // slots_per_hour)`;
Python `or` treats both a missing key and the value 0 as falsy. -/
def slot_interval (a : ApptCfg) : Nat :=
  match a.slotIntervalMins with
  | some n => if n = 0 then 60 / a.slotsPerHour else n
  | none => 60 / a.slotsPerHour

/-- `utc_ts (localize_dt d t tz)` for a fixed-offset zone: seconds since
the epoch of local minute `m` on date `d` with UTC offset `offMin`. -/
def utc_ts (d : CalDate) (offMin : Int) (m : Nat) : Int :=
  60 * (1440 * d.epochDay + (m : Int) - offMin)

/-- The cursor loop of lines 85-109, fuelled: emit `c` while
`c + i ≤ e`, stepping by `i + b`.  Fuel `e + 1 - c` is exact whenever
`0 < i + b`. -/
def cursorStarts_aux (i b : Nat) : Nat → Nat → Nat → List Nat
  | 0, _, _ => []
  | fuel + 1, c, e =>
    if c + i ≤ e ∧ 0 < i + b then c :: cursorStarts_aux i b fuel (c + i + b) e else []

/-- Start minutes of the candidate slots of one block. -/
def cursorStarts (i b c e : Nat) : List Nat :=
  cursorStarts_aux i b (e + 1 - c) c e

/-- Lines 92-96: a candidate interval `[s, e)` collides with an existing
appointment unless `ap.end ≤ s` or `ap.start ≥ e`. -/
def has_conflict (appts : List ApptIn) (s e : Int) : Bool :=
  appts.any fun ap => !(decide (ap.endUtcTs ≤ s) || decide (ap.startUtcTs ≥ e))

/-- The slot dictionary appended at lines 99-107, before the slot id is
attached. -/
def mkSlot (d : CalDate) (offMin : Int) (i : Nat) (docId : String) (c : Nat) : Slot :=
  { slotId := "", doctorId := docId, startLocalMin := c, endLocalMin := c + i,
    startUtcTs := utc_ts d offMin c, endUtcTs := utc_ts d offMin (c + i),
    durationMins := i }

/-- Conflict-free slots of one doctor inside one block. -/
def slots_for_block (d : CalDate) (offMin : Int) (i b : Nat)
    (appts : List ApptIn) (docId : String) (blk : Nat × Nat) : List Slot :=
  ((cursorStarts i b blk.1 blk.2).filter
      fun c => !has_conflict appts (utc_ts d offMin c) (utc_ts d offMin (c + i))).map
    (mkSlot d offMin i docId)

/-- All slots of one doctor: the block loop of lines 81-109, with the
appointments grouped per doctor as in lines 69-75. -/
def slots_for_doctor (d : CalDate) (offMin : Int) (i b : Nat)
    (blocks : List (Nat × Nat)) (appts : List ApptIn) (docId : String) : List Slot :=
  blocks.flatMap
    (slots_for_block d offMin i b (appts.filter fun ap => ap.doctorId == docId) docId)

/-- Line 100: `slot_id = f"{date}_{doctor}_{uuid4 hex}"`, one fresh draw
of the supply `u` per emitted slot, in emission order `k`. -/
def attach_slot_ids (u : Nat → String) (datePart : String) : Nat → List Slot → List Slot
  | _, [] => []
  | k, s :: rest =>
    { s with slotId := datePart ++ "_" ++ s.doctorId ++ "_" ++ u k } ::
      attach_slot_ids u datePart (k + 1) rest

/-- Line 111 sort key: the pair `(start_utc_ts, doctor_id)` compared
lexicographically, strings by their character lists. -/
def slotRel (s t : Slot) : Prop :=
  s.startUtcTs < t.startUtcTs ∨
    (s.startUtcTs = t.startUtcTs ∧ s.doctorId.data ≤ t.doctorId.data)

instance : DecidableRel slotRel := fun _ _ =>
  inferInstanceAs (Decidable (_ ∨ _))

/-- `generate_free_slots_for_day` (lines 26-112).  `u` is the uuid supply
(see the module comment). -/
def generate_free_slots_for_day (config : ClinicConfig) (target : CalDate)
    (existing : List ApptIn) (doctorIdFilter : Option String)
    (u : Nat → String) : List Slot :=
  match get_timing_for_day config.clinicTiming target.weekday with
  | none => []
  | some timing =>
    if timing.closed then []
    else
      let i := slot_interval config.appointmentConfig
      let b := config.appointmentConfig.bufferMins
      let blocks := get_time_blocks_for_day timing
      let cands := config.doctors.filter fun doc =>
        match doctorIdFilter with
        | none => true
        | some f => f == "" || doc.id == f
      if cands.isEmpty then []
      else
        let raw := cands.flatMap fun doc =>
          slots_for_doctor target config.timezoneOffsetMin i b blocks existing doc.id
        List.insertionSort slotRel (attach_slot_ids u target.ymdCompact 0 raw)

/-- The chain scan of `reserve_consecutive_slots` (lines 130-149).  The
chain is carried reversed (`rc`), so the Python `current_chain[-1]` is the
head; the emitted run is reversed back. -/
def reserve_aux : List Slot → List Slot → Nat → Option (List Slot)
  | [], _, _ => none
  | s :: rest, rc, req =>
    let rc2 : List Slot :=
      if s.available then
        match rc with
        | [] => [s]
        | prev :: _ => if s.startUtcTs = prev.endUtcTs then s :: rc else [s]
      else []
    if rc2.length = req then some rc2.reverse else reserve_aux rest rc2 req

/-- `reserve_consecutive_slots` (lines 115-149): required block count is
`service_duration // 15` (floor division, 15 hard-coded). -/
def reserve_consecutive_slots (day_slots : List Slot) (service_duration : Nat) :
    Option (List Slot) :=
  if day_slots.isEmpty then none
  else reserve_aux day_slots [] (service_duration / 15)

/-- A persisted appointment row, the fields read and written by the
booking and status endpoints of `app/api/v1/appointments.py`. -/
structure Appt where
  id : String
  doctorId : String
  date : String
  startUtcTs : Int
  endUtcTs : Int
  status : String
deriving DecidableEq

/-- The conflict query of `book_appointment` (lines 64-74): first row for
the same doctor and date with status confirmed or pending whose interval
satisfies `end > new_start` and `start < new_end`. -/
def findConflict (appts : List Appt) (docId dateStr : String) (s e : Int) :
    Option Appt :=
  appts.find? fun a =>
    a.doctorId == docId && a.date == dateStr &&
      (a.status == "confirmed" || a.status == "pending") &&
      decide (a.endUtcTs > s) && decide (a.startUtcTs < e)

/-- The request fields of `AppointmentCreate` read by the booking path. -/
structure BookReq where
  doctorId : String
  dateStr : String
  startUtcTs : Int
deriving DecidableEq

/-- The row inserted at lines 83-95 (status set to `confirmed`). -/
def book_insert_row (r : BookReq) (e : Int) (newId : String) : Appt :=
  { id := newId, doctorId := r.doctorId, date := r.dateStr,
    startUtcTs := r.startUtcTs, endUtcTs := e, status := "confirmed" }

/-- The conflict-check phase of `book_appointment`: the SELECT of lines
64-74 against the currently committed table. -/
def book_check (state : List Appt) (r : BookReq) (durationMinutes : Int) :
    Option Appt :=
  findConflict state r.doctorId r.dateStr r.startUtcTs
    (r.startUtcTs + durationMinutes * 60)

/-- The insert-and-commit phase of `book_appointment` (lines 83-98). -/
def book_commit (state : List Appt) (r : BookReq) (durationMinutes : Int)
    (newId : String) : List Appt :=
  state ++ [book_insert_row r (r.startUtcTs + durationMinutes * 60) newId]

/-- `book_appointment` run without interference: check then insert against
one state.  Entity validation (lines 42-58) is presupposed by supplying
the service duration; the error value is the conflicting appointment id
carried by `SlotTakenError`. -/
def book_appointment (state : List Appt) (r : BookReq) (durationMinutes : Int)
    (newId : String) : Except String (List Appt) :=
  match book_check state r durationMinutes with
  | some c => .error c.id
  | none => .ok (book_commit state r durationMinutes newId)

/-- `cancel_appointment` (lines 147-163) on a found row: guarded by the
status not being `cancelled` already; the error carries the HTTP status
and detail. -/
def cancel_appointment (a : Appt) : Except (Nat × String) Appt :=
  if a.status == "cancelled" then .error (400, "Appointment already cancelled")
  else .ok { a with status := "cancelled" }

/-- `mark_completed` (lines 220-233) on a found row: no status guard. -/
def mark_completed (a : Appt) : Except (Nat × String) Appt :=
  .ok { a with status := "completed" }

/-- `mark_no_show` (lines 236-247) on a found row: no status guard. -/
def mark_no_show (a : Appt) : Except (Nat × String) Appt :=
  .ok { a with status := "no_show" }

/-! ## Concrete fixtures used by witnesses and counterexamples -/

/-- A constant uuid supply. -/
def uuidConst : Nat → String := fun _ => "aaaaaa"

/-- A second uuid supply, differing from `uuidConst` everywhere. -/
def uuidConst2 : Nat → String := fun _ => "bbbbbb"

/-- Monday 2024-10-07 (epoch day 20003). -/
def dateMon : CalDate :=
  { epochDay := 20003, weekday := .monday, ymd := "2024-10-07",
    ymdCompact := "20241007" }

/-- The weekday timing of the C6 scenario: open 09:00-17:00 with lunch
13:00-14:00. -/
def timingScenario : DayTiming :=
  { startMin := 540, endMin := 1020,
    lunchBreak := some { enabled := true, lstart := 780, lend := 840 } }

/-- The C6 scenario configuration: slot width 15, buffer 0, one doctor. -/
def cfgScenario : ClinicConfig :=
  { timezoneOffsetMin := 330,
    clinicTiming := { weekdays := some timingScenario },
    appointmentConfig := { slotIntervalMins := some 15, bufferMins := 0 },
    doctors := [⟨"d1"⟩] }

/-- A small open-one-hour configuration whose closed-date set contains
2024-10-07, the target date itself. -/
def cfgHoliday : ClinicConfig :=
  { timezoneOffsetMin := 330,
    clinicTiming :=
      { weekdays := some { startMin := 540, endMin := 600 },
        closedDates := ["2024-10-07"] },
    appointmentConfig := { slotIntervalMins := some 15, bufferMins := 0 },
    doctors := [⟨"d1"⟩] }

/-- Existing booking 10:15-10:45 UTC-seconds `[36900, 38700)` for the
overlap scenario. -/
def apExisting : Appt :=
  { id := "apA", doctorId := "d1", date := "2024-10-07",
    startUtcTs := 36900, endUtcTs := 38700, status := "confirmed" }

/-- Booking request at 10:00 (seconds 36000) for doctor d1. -/
def reqTen : BookReq :=
  { doctorId := "d1", dateStr := "2024-10-07", startUtcTs := 36000 }

/-- A cancelled appointment row. -/
def apCancelled : Appt :=
  { id := "apC", doctorId := "d1", date := "2024-10-07",
    startUtcTs := 36000, endUtcTs := 36900, status := "cancelled" }

/-- Two back-to-back 15-minute free slots 10:00-10:15 and 10:15-10:30. -/
def slotTen : Slot :=
  { slotId := "s1", doctorId := "d1", startLocalMin := 930, endLocalMin := 945,
    startUtcTs := 36000, endUtcTs := 36900, durationMins := 15 }

def slotTenFifteen : Slot :=
  { slotId := "s2", doctorId := "d1", startLocalMin := 945, endLocalMin := 960,
    startUtcTs := 36900, endUtcTs := 37800, durationMins := 15 }

/-! ## C2 — half-open overlap rule -/

/-- C2: a proposed interval conflicts with a stored appointment iff the
appointment is for the same doctor and date, has status confirmed or
pending, and the half-open intervals overlap (`A.start < B.end` and
`B.start < A.end`); the same half-open test drives the slot engine
filter; touching endpoints do not conflict.  Concretely, booking
`[10:00,10:30)` against an existing `[10:15,10:45)` booking fails with
the colliding appointment id `apA`, while `[10:00,10:15)` succeeds. -/
theorem overlap_rule_halfOpen :
    (∀ (appts : List Appt) (docId dateStr : String) (s e : Int),
        (findConflict appts docId dateStr s e).isSome ↔
          ∃ a ∈ appts, a.doctorId = docId ∧ a.date = dateStr ∧
            (a.status = "confirmed" ∨ a.status = "pending") ∧
            a.startUtcTs < e ∧ s < a.endUtcTs) ∧
    (∀ (appts : List ApptIn) (s e : Int),
        has_conflict appts s e = true ↔
          ∃ ap ∈ appts, ap.startUtcTs < e ∧ s < ap.endUtcTs) ∧
    book_appointment [apExisting] reqTen 30 "apNew" = .error "apA" ∧
    book_appointment [apExisting] reqTen 15 "apNew" =
      .ok [apExisting, book_insert_row reqTen 36900 "apNew"] := by
  refine ⟨?_, ?_, rfl, rfl⟩
  · intro appts docId dateStr s e
    simp only [findConflict, List.find?_isSome, Bool.and_eq_true, Bool.or_eq_true,
      beq_iff_eq, decide_eq_true_eq, gt_iff_lt]
    constructor
    · rintro ⟨a, ha, ⟨⟨⟨h1, h2⟩, h3⟩, h4⟩, h5⟩
      exact ⟨a, ha, h1, h2, h3, h5, h4⟩
    · rintro ⟨a, ha, h1, h2, h3, h4, h5⟩
      exact ⟨a, ha, ⟨⟨⟨h1, h2⟩, h3⟩, h5⟩, h4⟩
  · intro appts s e
    simp only [has_conflict, List.any_eq_true, Bool.not_eq_true',
      Bool.or_eq_false_iff, decide_eq_false_iff_not, not_le, not_lt, ge_iff_le]
    constructor
    · rintro ⟨ap, hap, h1, h2⟩
      exact ⟨ap, hap, h2, h1⟩
    · rintro ⟨ap, hap, h1, h2⟩
      exact ⟨ap, hap, h2, h1⟩

/-! ## C4 — closed dates are ignored by the engine -/

/-- C4: the target date 2024-10-07 is in the closed-date set of
`cfgHoliday`, yet `generate_free_slots_for_day` still produces four
slots rather than the empty list: the engine never consults
`closed_dates`, so the short-circuit claimed by the specification does
not happen. -/
theorem closed_date_not_consulted :
    dateMon.ymd ∈ cfgHoliday.clinicTiming.closedDates ∧
    (generate_free_slots_for_day cfgHoliday dateMon [] none uuidConst).length = 4 ∧
    generate_free_slots_for_day cfgHoliday dateMon [] none uuidConst ≠ [] := by
  refine ⟨by decide, by decide, by decide⟩

/-! ## C5 — required block count is floor, not ceiling -/

/-- C5: for a 40-minute service over 15-minute base slots the code
demands `40 // 15 = 2` consecutive slots and happily returns a
two-slot run covering only 30 minutes, while the specified count is
`ceil(40 / 15) = 3`: the trailing partial slot is not reserved. -/
theorem reserve_uses_floor_not_ceil :
    reserve_consecutive_slots [slotTen, slotTenFifteen] 40 =
      some [slotTen, slotTenFifteen] ∧
    (40 : Nat) / 15 = 2 ∧ ((40 : Nat) + 15 - 1) / 15 = 3 := by
  refine ⟨by decide, by decide, by decide⟩

/-! ## C6 — the 09:00-17:00 lunch scenario yields 28 slots, not 32 -/

/-- C6 (counterexample): the scenario clinic (open 09:00-17:00, lunch
13:00-14:00, width 15, buffer 0, one doctor, no bookings) does not
produce 32 slots. -/
theorem scenario_day_not_32_slots :
    (generate_free_slots_for_day cfgScenario dateMon [] none uuidConst).length ≠ 32 := by
  decide

/-- C6 (amended): the scenario clinic produces exactly 28 slots for the
day: 16 in the morning block 09:00-13:00 and 12 in the afternoon block
14:00-17:00. -/
theorem scenario_day_28_slots :
    (generate_free_slots_for_day cfgScenario dateMon [] none uuidConst).length = 28 ∧
    (generate_free_slots_for_day cfgScenario dateMon [] none uuidConst).countP
      (fun s => decide (s.startLocalMin < 780)) = 16 ∧
    (generate_free_slots_for_day cfgScenario dateMon [] none uuidConst).countP
      (fun s => decide (840 ≤ s.startLocalMin)) = 12 := by
  refine ⟨by decide, by decide, by decide⟩

/-! ## C9 — only cancel is guarded by "not already cancelled" -/

/-- C9 (counterexample): marking a cancelled appointment completed does
not fail; it succeeds and overwrites the status, so the record does not
stay unchanged. -/
theorem complete_not_guarded_on_cancelled :
    mark_completed apCancelled = .ok { apCancelled with status := "completed" } ∧
    mark_no_show apCancelled = .ok { apCancelled with status := "no_show" } := by
  exact ⟨rfl, rfl⟩

/-- C9 (amended): on an already-cancelled appointment, `cancel` is the
only guarded transition — it fails with HTTP 400 and leaves the record
unchanged — while `complete` and `no-show` succeed unconditionally and
overwrite the status. -/
theorem cancelled_guard_only_cancel (a : Appt) (h : a.status = "cancelled") :
    cancel_appointment a = .error (400, "Appointment already cancelled") ∧
    mark_completed a = .ok { a with status := "completed" } ∧
    mark_no_show a = .ok { a with status := "no_show" } := by
  refine ⟨?_, rfl, rfl⟩
  simp [cancel_appointment, h]

/-- Witness for `cancelled_guard_only_cancel` at the concrete cancelled
row. -/
theorem cancelled_guard_only_cancel_witness :
    apCancelled.status = "cancelled" ∧
    cancel_appointment apCancelled = .error (400, "Appointment already cancelled") :=
  ⟨rfl, (cancelled_guard_only_cancel apCancelled rfl).1⟩

/-! ## C3 — slot generation is deterministic only up to the uuid nonce -/

/-- A slot with its synthetic id blanked; every other field kept. -/
def eraseSlotId (s : Slot) : Slot := { s with slotId := "" }

/-- Attaching slot ids changes nothing but the `slotId` field. -/
theorem map_erase_attach (u : Nat → String) (datePart : String) :
    ∀ (k : Nat) (l : List Slot),
      (attach_slot_ids u datePart k l).map eraseSlotId = l.map eraseSlotId := by
  intro k l
  induction l generalizing k with
  | nil => rfl
  | cons s rest ih => simp [attach_slot_ids, eraseSlotId, ih]

/-- The sort key ignores the slot id, so sorting commutes with blanking
the ids. -/
theorem map_erase_insertionSort :
    ∀ l : List Slot,
      (List.insertionSort slotRel l).map eraseSlotId =
        List.insertionSort slotRel (l.map eraseSlotId) := by
  intro l
  induction l with
  | nil => rfl
  | cons s rest ih =>
    show (List.orderedInsert slotRel s (List.insertionSort slotRel rest)).map eraseSlotId = _
    rw [List.map_orderedInsert slotRel slotRel eraseSlotId _ s
      (fun _ _ => Iff.rfl) (fun _ _ => Iff.rfl), ih]
    rfl

/-- C3 (counterexample): two runs on byte-identical config, date and
bookings snapshot but distinct RNG draws give different outputs — the
slot_id fields differ, so the output is not a pure function of config,
date and bookings alone. -/
theorem slots_not_identical_across_runs :
    generate_free_slots_for_day cfgHoliday dateMon [] none uuidConst ≠
      generate_free_slots_for_day cfgHoliday dateMon [] none uuidConst2 := by
  decide

/-- C3 (amended): up to the `slot_id` field, the generated slot list is a
pure deterministic function of config, date and bookings snapshot: any
two uuid supplies produce slot lists equal after blanking slot ids. -/
theorem slots_deterministic_up_to_slotId
    (config : ClinicConfig) (target : CalDate) (existing : List ApptIn)
    (filt : Option String) (u v : Nat → String) :
    (generate_free_slots_for_day config target existing filt u).map eraseSlotId =
      (generate_free_slots_for_day config target existing filt v).map eraseSlotId := by
  cases h : get_timing_for_day config.clinicTiming target.weekday with
  | none => simp [generate_free_slots_for_day, h]
  | some timing =>
    simp only [generate_free_slots_for_day, h]
    split_ifs with h1 h2
    · rfl
    · rfl
    · rw [map_erase_insertionSort, map_erase_insertionSort,
        map_erase_attach, map_erase_attach]

/-! ## C1 — the conflict check and the insert are not one atomic unit -/

/-- C1 (counterexample): the booking path separates the conflict SELECT
from the INSERT with no lock.  In the interleaving check-A, check-B,
insert-A, insert-B both checks run against the same committed state and
both pass, so both calls succeed and two overlapping confirmed rows for
the same doctor are persisted — more than one winner, and a duplicate
record. -/
theorem booking_race_two_winners :
    book_check [] reqTen 30 = none ∧
    book_commit (book_commit [] reqTen 30 "a1") reqTen 30 "a2" =
      [book_insert_row reqTen 37800 "a1", book_insert_row reqTen 37800 "a2"] ∧
    (book_insert_row reqTen 37800 "a1").doctorId =
      (book_insert_row reqTen 37800 "a2").doctorId ∧
    (book_insert_row reqTen 37800 "a1").startUtcTs <
      (book_insert_row reqTen 37800 "a2").endUtcTs ∧
    (book_insert_row reqTen 37800 "a2").startUtcTs <
      (book_insert_row reqTen 37800 "a1").endUtcTs ∧
    (book_insert_row reqTen 37800 "a1").status = "confirmed" ∧
    (book_insert_row reqTen 37800 "a2").status = "confirmed" := by
  exact ⟨rfl, rfl, rfl, by decide, by decide, rfl, rfl⟩

/-- C1 (amended): when the two calls do not interleave — the second
conflict check runs against the state the first call committed — at most
one identical-interval call wins: after a successful booking, a second
booking of the same request fails with a conflict naming the first
booking id.  (The interleaved executions of the unlocked code can
produce two winners, as `booking_race_two_winners` shows.) -/
theorem booking_sequential_one_winner
    (s : List Appt) (r : BookReq) (dur : Int) (id1 id2 : String)
    (s1 : List Appt) (hdur : 0 < dur)
    (h : book_appointment s r dur id1 = .ok s1) :
    book_appointment s1 r dur id2 = .error id1 := by
  unfold book_appointment at h ⊢
  cases hc : book_check s r dur with
  | some c => rw [hc] at h; cases h
  | none =>
    rw [hc] at h
    have hs1 : s1 = book_commit s r dur id1 := by
      cases h; rfl
    subst hs1
    unfold book_check findConflict at hc ⊢
    unfold book_commit
    rw [List.find?_append, hc, Option.none_or]
    have hrow :
        List.find?
          (fun a : Appt =>
            a.doctorId == r.doctorId && a.date == r.dateStr &&
              (a.status == "confirmed" || a.status == "pending") &&
              decide (a.endUtcTs > r.startUtcTs) &&
              decide (a.startUtcTs < r.startUtcTs + dur * 60))
          [book_insert_row r (r.startUtcTs + dur * 60) id1] =
          some (book_insert_row r (r.startUtcTs + dur * 60) id1) := by
      apply List.find?_cons_of_pos
      simp only [book_insert_row, Bool.and_eq_true, Bool.or_eq_true, beq_iff_eq,
        decide_eq_true_eq, gt_iff_lt]
      simp only [true_and, and_true, eq_self_iff_true, or_true, true_or]
      omega
    rw [hrow]
    rfl

/-- Witness for `booking_sequential_one_winner`: booking the 10:00 slot
twice in sequence, the second call reports a conflict with the first
booking id. -/
theorem booking_sequential_one_winner_witness :
    (0 : Int) < 30 ∧
    book_appointment (book_commit [] reqTen 30 "a1") reqTen 30 "a2" =
      .error "a1" :=
  ⟨by decide,
    booking_sequential_one_winner [] reqTen 30 "a1" "a2"
      (book_commit [] reqTen 30 "a1") (by decide) rfl⟩

/-! ## C8 — malformed hours are silently tolerated -/

/-- A configuration whose weekday open interval is inverted
(17:00 to 09:00). -/
def cfgInverted : ClinicConfig :=
  { timezoneOffsetMin := 330,
    clinicTiming := { weekdays := some { startMin := 1020, endMin := 540 } },
    appointmentConfig := { slotIntervalMins := some 15, bufferMins := 0 },
    doctors := [⟨"d1"⟩] }

/-- The cursor loop emits nothing when even the first slot does not fit. -/
theorem cursorStarts_aux_eq_nil {i b : Nat} (fuel c e : Nat) (h : e < c + i) :
    cursorStarts_aux i b fuel c e = [] := by
  cases fuel with
  | zero => rfl
  | succ n =>
    simp only [cursorStarts_aux, ite_eq_right_iff, and_imp]
    intro h1
    omega

theorem cursorStarts_eq_nil {i b c e : Nat} (h : e < c + i) :
    cursorStarts i b c e = [] :=
  cursorStarts_aux_eq_nil _ c e h

/-- C8 (counterexample): the inverted-interval configuration is malformed
(`end ≤ start`), yet slot generation returns the plain empty list.  The
generator has no error outcome at all — its result type is just the slot
list — so no configuration error reaches the caller. -/
theorem malformed_config_yields_empty :
    (cfgInverted.clinicTiming.weekdays.getD { startMin := 0, endMin := 0 }).endMin ≤
      (cfgInverted.clinicTiming.weekdays.getD { startMin := 0, endMin := 0 }).startMin ∧
    generate_free_slots_for_day cfgInverted dateMon [] none uuidConst = [] := by
  exact ⟨by decide, by decide⟩

/-- C8 (amended): for every configuration whose selected timing has an
inverted open interval (`end ≤ start`, lunch break absent) and a positive
slot width, `generate_free_slots_for_day` silently returns the empty
list; no configuration error is surfaced (none exists in the code). -/
theorem malformed_open_interval_silent
    (config : ClinicConfig) (target : CalDate) (existing : List ApptIn)
    (filt : Option String) (u : Nat → String) (timing : DayTiming)
    (h : get_timing_for_day config.clinicTiming target.weekday = some timing)
    (hcl : timing.closed = false)
    (hlb : timing.lunchBreak = none)
    (hmal : timing.endMin ≤ timing.startMin)
    (hi : 0 < slot_interval config.appointmentConfig) :
    generate_free_slots_for_day config target existing filt u = [] := by
  unfold generate_free_slots_for_day
  rw [h]
  simp only [hcl, Bool.false_eq_true, if_false]
  have hblocks : get_time_blocks_for_day timing = [(timing.startMin, timing.endMin)] := by
    simp [get_time_blocks_for_day, hlb]
  have hdoc : ∀ docId : String,
      slots_for_doctor target config.timezoneOffsetMin
        (slot_interval config.appointmentConfig) config.appointmentConfig.bufferMins
        (get_time_blocks_for_day timing) existing docId = [] := by
    intro docId
    rw [hblocks]
    simp only [slots_for_doctor, List.flatMap_cons, List.flatMap_nil, List.append_nil]
    simp only [slots_for_block]
    rw [cursorStarts_eq_nil (by omega)]
    rfl
  split
  · rfl
  · have hraw :
        ((config.doctors.filter fun doc =>
            match filt with
            | none => true
            | some f => f == "" || doc.id == f).flatMap fun doc =>
          slots_for_doctor target config.timezoneOffsetMin
            (slot_interval config.appointmentConfig) config.appointmentConfig.bufferMins
            (get_time_blocks_for_day timing) existing doc.id) = [] := by
      rw [List.flatMap_eq_nil_iff]
      intro doc _
      exact hdoc doc.id
    rw [hraw]
    rfl

/-- Witness for `malformed_open_interval_silent` at the inverted
configuration. -/
theorem malformed_open_interval_silent_witness :
    0 < slot_interval cfgInverted.appointmentConfig ∧
    generate_free_slots_for_day cfgInverted dateMon [] none uuidConst = [] :=
  ⟨by decide,
    malformed_open_interval_silent cfgInverted dateMon [] none uuidConst
      { startMin := 1020, endMin := 540 } rfl rfl rfl (by decide) (by decide)⟩

/-! ## Structure of the generated slot grid (infrastructure for the
ordering, disjointness and buffer-gap claims) -/

/-- Every emitted cursor position lies in `[c, e - i]` and on the grid
`c + k * (i + b)`. -/
theorem mem_cursorStarts_aux {i b : Nat} :
    ∀ (fuel c e x : Nat), x ∈ cursorStarts_aux i b fuel c e →
      c ≤ x ∧ x + i ≤ e ∧ ∃ k, x = c + k * (i + b) := by
  intro fuel
  induction fuel with
  | zero => intro c e x hx; cases hx
  | succ n ih =>
    intro c e x hx
    rw [cursorStarts_aux] at hx
    split at hx
    · rename_i hcond
      rcases List.mem_cons.mp hx with rfl | hx2
      · exact ⟨Nat.le_refl x, hcond.1, 0, by omega⟩
      · obtain ⟨h1, h2, k, hk⟩ := ih (c + i + b) e x hx2
        refine ⟨by omega, h2, k + 1, ?_⟩
        have : (k + 1) * (i + b) = k * (i + b) + (i + b) := by ring
        omega
    · cases hx

theorem mem_cursorStarts {i b c e x : Nat} (hx : x ∈ cursorStarts i b c e) :
    c ≤ x ∧ x + i ≤ e ∧ ∃ k, x = c + k * (i + b) :=
  mem_cursorStarts_aux _ c e x hx

/-- Emitted cursor positions are separated by at least a full slot width. -/
theorem pairwise_cursorStarts_aux {i b : Nat} :
    ∀ (fuel c e : Nat),
      (cursorStarts_aux i b fuel c e).Pairwise (fun x y => x + i ≤ y) := by
  intro fuel
  induction fuel with
  | zero => intro c e; exact List.Pairwise.nil
  | succ n ih =>
    intro c e
    rw [cursorStarts_aux]
    split
    · rename_i hcond
      refine List.Pairwise.cons ?_ (ih (c + i + b) e)
      intro y hy
      have := (mem_cursorStarts_aux n (c + i + b) e y hy).1
      omega
    · exact List.Pairwise.nil

theorem pairwise_cursorStarts {i b c e : Nat} :
    (cursorStarts i b c e).Pairwise (fun x y => x + i ≤ y) :=
  pairwise_cursorStarts_aux _ c e

/-- Localization to UTC is strictly monotone in the local minute. -/
theorem utc_ts_le_iff {d : CalDate} {off : Int} {m n : Nat} :
    utc_ts d off m ≤ utc_ts d off n ↔ m ≤ n := by
  unfold utc_ts; omega

theorem utc_ts_inj {d : CalDate} {off : Int} {m n : Nat} :
    utc_ts d off m = utc_ts d off n ↔ m = n := by
  unfold utc_ts; omega

/-- Inversion for block slots: each comes from a cursor position. -/
theorem mem_slots_for_block {d : CalDate} {off : Int} {i b : Nat}
    {appts : List ApptIn} {docId : String} {blk : Nat × Nat} {s : Slot}
    (hs : s ∈ slots_for_block d off i b appts docId blk) :
    ∃ c, c ∈ cursorStarts i b blk.1 blk.2 ∧ s = mkSlot d off i docId c := by
  unfold slots_for_block at hs
  obtain ⟨c, hc, rfl⟩ := List.mem_map.mp hs
  exact ⟨c, (List.mem_filter.mp hc).1, rfl⟩

/-- Every slot of a block carries the doctor id it was generated for. -/
theorem slots_for_block_doctorId {d : CalDate} {off : Int} {i b : Nat}
    {appts : List ApptIn} {docId : String} {blk : Nat × Nat} {s : Slot}
    (hs : s ∈ slots_for_block d off i b appts docId blk) :
    s.doctorId = docId := by
  obtain ⟨c, _, rfl⟩ := mem_slots_for_block hs
  rfl

/-- Block slots in emission order do not overlap: each ends before the
next starts. -/
theorem pairwise_slots_for_block {d : CalDate} {off : Int} {i b : Nat}
    {appts : List ApptIn} {docId : String} {blk : Nat × Nat} :
    (slots_for_block d off i b appts docId blk).Pairwise
      (fun s t => s.endUtcTs ≤ t.startUtcTs) := by
  unfold slots_for_block
  rw [List.pairwise_map]
  refine List.Pairwise.filter _ ?_
  refine pairwise_cursorStarts.imp ?_
  intro x y hxy
  exact utc_ts_le_iff.mpr hxy

/-- Block slots stay inside the UTC image of their block. -/
theorem slots_for_block_bounds {d : CalDate} {off : Int} {i b : Nat}
    {appts : List ApptIn} {docId : String} {blk : Nat × Nat} {s : Slot}
    (hs : s ∈ slots_for_block d off i b appts docId blk) :
    utc_ts d off blk.1 ≤ s.startUtcTs ∧ s.endUtcTs ≤ utc_ts d off blk.2 := by
  obtain ⟨c, hc, rfl⟩ := mem_slots_for_block hs
  obtain ⟨h1, h2, -⟩ := mem_cursorStarts hc
  exact ⟨utc_ts_le_iff.mpr h1, utc_ts_le_iff.mpr h2⟩

/-- Well-formed lunch: when enabled it does not end before it starts.
This is the invariant the specification states for lunch intervals. -/
def lunch_ordered (t : DayTiming) : Prop :=
  match t.lunchBreak with
  | none => True
  | some l => l.enabled = true → l.lstart ≤ l.lend

/-- Strictly separated lunch: when enabled it has positive width. -/
def lunch_separated (t : DayTiming) : Prop :=
  match t.lunchBreak with
  | none => True
  | some l => l.enabled = true → l.lstart < l.lend

/-- With an ordered lunch, the day blocks appear in order: each block
ends no later than the next begins. -/
theorem blocks_pairwise_le {t : DayTiming} (h : lunch_ordered t) :
    (get_time_blocks_for_day t).Pairwise (fun p q => p.2 ≤ q.1) := by
  unfold get_time_blocks_for_day
  unfold lunch_ordered at h
  cases hl : t.lunchBreak with
  | none => simp
  | some l =>
    rw [hl] at h
    by_cases he : l.enabled = true
    · have hle := h he
      simp only [he, if_true]
      rw [List.pairwise_append]
      refine ⟨?_, ?_, ?_⟩
      · split <;> simp
      · split <;> simp
      · intro p hp q hq
        split at hp
        · rcases List.mem_singleton.mp hp with rfl
          split at hq
          · rcases List.mem_singleton.mp hq with rfl
            simp only
            omega
          · cases hq
        · cases hp
    · simp only [he, if_false]
      simp

/-- With a strictly separated lunch, two day blocks are either the same
pair or strictly apart. -/
theorem blocks_rel_strict {t : DayTiming} (h : lunch_separated t) :
    ∀ p ∈ get_time_blocks_for_day t, ∀ q ∈ get_time_blocks_for_day t,
      p = q ∨ p.2 < q.1 ∨ q.2 < p.1 := by
  unfold get_time_blocks_for_day
  unfold lunch_separated at h
  cases hl : t.lunchBreak with
  | none =>
    intro p hp q hq
    rcases List.mem_singleton.mp hp with rfl
    rcases List.mem_singleton.mp hq with rfl
    exact Or.inl rfl
  | some l =>
    rw [hl] at h
    by_cases he : l.enabled = true
    · have hlt := h he
      simp only [he, if_true]
      by_cases h1 : t.startMin < l.lstart
      · by_cases h2 : l.lend < t.endMin
        · simp only [h1, h2, if_true]
          intro p hp q hq
          simp only [List.mem_append, List.mem_singleton] at hp hq
          rcases hp with rfl | rfl <;> rcases hq with rfl | rfl
          · exact Or.inl rfl
          · refine Or.inr (Or.inl ?_); dsimp only; omega
          · refine Or.inr (Or.inr ?_); dsimp only; omega
          · exact Or.inl rfl
        · simp only [h1, h2, if_true, if_false, List.append_nil]
          intro p hp q hq
          rcases List.mem_singleton.mp hp with rfl
          rcases List.mem_singleton.mp hq with rfl
          exact Or.inl rfl
      · by_cases h2 : l.lend < t.endMin
        · simp only [h1, h2, if_true, if_false, List.nil_append]
          intro p hp q hq
          rcases List.mem_singleton.mp hp with rfl
          rcases List.mem_singleton.mp hq with rfl
          exact Or.inl rfl
        · simp only [h1, h2, if_false, List.append_nil]
          intro p hp q hq
          cases hp
    · simp only [he, if_false]
      intro p hp q hq
      rcases List.mem_singleton.mp hp with rfl
      rcases List.mem_singleton.mp hq with rfl
      exact Or.inl rfl

/-- Ordered blocks give ordered per-doctor slots: in emission order, each
slot of one doctor ends no later than the next begins. -/
theorem pairwise_slots_for_doctor {d : CalDate} {off : Int} {i b : Nat}
    {blocks : List (Nat × Nat)} {appts : List ApptIn} {docId : String}
    (hb : blocks.Pairwise (fun p q => p.2 ≤ q.1)) :
    (slots_for_doctor d off i b blocks appts docId).Pairwise
      (fun s t => s.endUtcTs ≤ t.startUtcTs) := by
  unfold slots_for_doctor
  rw [List.pairwise_flatMap]
  refine ⟨fun blk _ => pairwise_slots_for_block, ?_⟩
  refine hb.imp ?_
  intro p q hpq x hx y hy
  exact le_trans (slots_for_block_bounds hx).2
    (le_trans (utc_ts_le_iff.mpr hpq) (slots_for_block_bounds hy).1)

/-- Every slot of one doctor carries that doctor id. -/
theorem slots_for_doctor_doctorId {d : CalDate} {off : Int} {i b : Nat}
    {blocks : List (Nat × Nat)} {appts : List ApptIn} {docId : String} {s : Slot}
    (hs : s ∈ slots_for_doctor d off i b blocks appts docId) :
    s.doctorId = docId := by
  unfold slots_for_doctor at hs
  obtain ⟨blk, -, hmem⟩ := List.mem_flatMap.mp hs
  exact slots_for_block_doctorId hmem

/-- Two slots of the same doctor occupy disjoint half-open intervals. -/
def sameDoctorDisjoint (s t : Slot) : Prop :=
  s.doctorId = t.doctorId → s.endUtcTs ≤ t.startUtcTs ∨ t.endUtcTs ≤ s.startUtcTs

theorem sameDoctorDisjoint_symm {s t : Slot}
    (h : sameDoctorDisjoint s t) : sameDoctorDisjoint t s := by
  intro he
  rcases h he.symm with h1 | h1
  · exact Or.inr h1
  · exact Or.inl h1

/-- The concatenated multi-doctor slot list is pairwise disjoint per
doctor, provided the doctor ids are distinct and blocks are ordered. -/
theorem pairwise_raw_slots {d : CalDate} {off : Int} {i b : Nat}
    {blocks : List (Nat × Nat)} {appts : List ApptIn} {docs : List DoctorCfg}
    (hb : blocks.Pairwise (fun p q => p.2 ≤ q.1))
    (hnd : (docs.map DoctorCfg.id).Nodup) :
    (docs.flatMap fun doc =>
      slots_for_doctor d off i b blocks appts doc.id).Pairwise sameDoctorDisjoint := by
  rw [List.pairwise_flatMap]
  constructor
  · intro doc _
    refine (pairwise_slots_for_doctor hb).imp ?_
    intro s t hst _
    exact Or.inl hst
  · have hnd2 : docs.Pairwise (fun d1 d2 => d1.id ≠ d2.id) := List.pairwise_map.mp hnd
    refine hnd2.imp ?_
    intro d1 d2 hne x hx y hy heq
    exfalso
    apply hne
    rw [← slots_for_doctor_doctorId hx, ← slots_for_doctor_doctorId hy]
    exact heq

/-- Inversion for id attachment: each output slot is an input slot with
only its `slotId` replaced. -/
theorem mem_attach_slot_ids {u : Nat → String} {p : String} :
    ∀ {k : Nat} {l : List Slot} {s2 : Slot}, s2 ∈ attach_slot_ids u p k l →
      ∃ s ∈ l, ∃ j, s2 = { s with slotId := p ++ "_" ++ s.doctorId ++ "_" ++ u j } := by
  intro k l
  induction l generalizing k with
  | nil => intro s2 h; cases h
  | cons s rest ih =>
    intro s2 h
    rcases List.mem_cons.mp h with rfl | h2
    · exact ⟨s, List.mem_cons_self s rest, k, rfl⟩
    · obtain ⟨t, ht, j, rfl⟩ := ih h2
      exact ⟨t, List.mem_cons_of_mem s ht, j, rfl⟩

/-- Attaching ids preserves any pairwise relation that ignores `slotId`. -/
theorem pairwise_attach_slot_ids {R : Slot → Slot → Prop}
    (hR : ∀ (s t : Slot) (x y : String),
      R s t → R { s with slotId := x } { t with slotId := y })
    (u : Nat → String) (p : String) :
    ∀ (k : Nat) (l : List Slot), l.Pairwise R → (attach_slot_ids u p k l).Pairwise R := by
  intro k l
  induction l generalizing k with
  | nil => intro _; exact List.Pairwise.nil
  | cons s rest ih =>
    intro hp
    rcases List.pairwise_cons.mp hp with ⟨hhead, htail⟩
    refine List.Pairwise.cons ?_ (ih (k + 1) htail)
    intro t2 ht2
    obtain ⟨t, ht, j, rfl⟩ := mem_attach_slot_ids ht2
    exact hR s t _ _ (hhead t ht)

instance : IsTrans Slot slotRel :=
  ⟨by
    intro a b c hab hbc
    rcases hab with h1 | ⟨h1, h2⟩ <;> rcases hbc with h3 | ⟨h3, h4⟩
    · exact Or.inl (lt_trans h1 h3)
    · exact Or.inl (h3 ▸ h1)
    · exact Or.inl (lt_of_le_of_lt (le_of_eq h1) h3)
    · exact Or.inr ⟨h1.trans h3, le_trans h2 h4⟩⟩

instance : IsTotal Slot slotRel :=
  ⟨by
    intro a b
    rcases lt_trichotomy a.startUtcTs b.startUtcTs with h | h | h
    · exact Or.inl (Or.inl h)
    · rcases le_total a.doctorId.data b.doctorId.data with hd | hd
      · exact Or.inl (Or.inr ⟨h, hd⟩)
      · exact Or.inr (Or.inr ⟨h.symm, hd⟩)
    · exact Or.inr (Or.inl h)⟩

/-! ## C7 — ordering and disjointness of generated slots -/

/-- A clinic with two doctors and a single 15-minute opening, so both
doctors get the same 09:00-09:15 slot. -/
def cfgTwoDoctors : ClinicConfig :=
  { timezoneOffsetMin := 330,
    clinicTiming := { weekdays := some { startMin := 540, endMin := 555 } },
    appointmentConfig := { slotIntervalMins := some 15, bufferMins := 0 },
    doctors := [⟨"d1"⟩, ⟨"d2"⟩] }

/-- C7 (counterexample): with two doctors the output holds two distinct
slots over the very same time interval, so it is not true that for every
two distinct slots one ends before the other starts — time-disjointness
can only hold per doctor. -/
theorem slots_overlap_across_doctors :
    (generate_free_slots_for_day cfgTwoDoctors dateMon [] none uuidConst).length = 2 ∧
    (generate_free_slots_for_day cfgTwoDoctors dateMon [] none uuidConst).getD 0 default ≠
      (generate_free_slots_for_day cfgTwoDoctors dateMon [] none uuidConst).getD 1 default ∧
    ¬((generate_free_slots_for_day cfgTwoDoctors dateMon [] none uuidConst).getD 0
        default).endUtcTs ≤
      ((generate_free_slots_for_day cfgTwoDoctors dateMon [] none uuidConst).getD 1
        default).startUtcTs ∧
    ¬((generate_free_slots_for_day cfgTwoDoctors dateMon [] none uuidConst).getD 1
        default).endUtcTs ≤
      ((generate_free_slots_for_day cfgTwoDoctors dateMon [] none uuidConst).getD 0
        default).startUtcTs := by
  refine ⟨by decide, by decide, by decide, by decide⟩

/-- C7 (amended): for every configuration with pairwise-distinct doctor
ids whose selected timing has an ordered lunch, the generated list is
sorted by the pair `(start_utc_ts, doctor_id)` and any two slots of the
same doctor occupy disjoint half-open intervals (one ends no later than
the other starts).  Across different doctors simultaneous slots are
expected and the disjointness claim does not apply. -/
theorem slots_sorted_and_per_doctor_disjoint
    (config : ClinicConfig) (target : CalDate) (existing : List ApptIn)
    (filt : Option String) (u : Nat → String)
    (hnd : (config.doctors.map DoctorCfg.id).Nodup)
    (hl : ∀ timing, get_timing_for_day config.clinicTiming target.weekday = some timing →
      lunch_ordered timing) :
    (generate_free_slots_for_day config target existing filt u).Sorted slotRel ∧
    (generate_free_slots_for_day config target existing filt u).Pairwise
      sameDoctorDisjoint := by
  cases htim : get_timing_for_day config.clinicTiming target.weekday with
  | none =>
    unfold generate_free_slots_for_day
    rw [htim]
    exact ⟨List.sorted_nil, List.Pairwise.nil⟩
  | some timing =>
    unfold generate_free_slots_for_day
    rw [htim]
    by_cases hcl : timing.closed
    · simp only [hcl, if_true]
      exact ⟨List.sorted_nil, List.Pairwise.nil⟩
    · rw [Bool.not_eq_true] at hcl
      simp only [hcl, Bool.false_eq_true, if_false]
      split
      · exact ⟨List.sorted_nil, List.Pairwise.nil⟩
      · constructor
        · exact List.sorted_insertionSort slotRel _
        · refine ((List.perm_insertionSort slotRel _).pairwise_iff
            (fun h => sameDoctorDisjoint_symm h)).mpr ?_
          refine pairwise_attach_slot_ids (fun s t x y h => h) u _ 0 _ ?_
          refine pairwise_raw_slots (blocks_pairwise_le (hl timing htim)) ?_
          exact hnd.sublist ((List.filter_sublist _).map DoctorCfg.id)

/-- Witness for `slots_sorted_and_per_doctor_disjoint` at the two-doctor
configuration. -/
theorem slots_sorted_and_per_doctor_disjoint_witness :
    (cfgTwoDoctors.doctors.map DoctorCfg.id).Nodup ∧
    ((generate_free_slots_for_day cfgTwoDoctors dateMon [] none uuidConst).Sorted slotRel ∧
      (generate_free_slots_for_day cfgTwoDoctors dateMon [] none uuidConst).Pairwise
        sameDoctorDisjoint) :=
  ⟨by decide,
    slots_sorted_and_per_doctor_disjoint cfgTwoDoctors dateMon [] none uuidConst
      (by decide) (fun t h => by cases Option.some.inj h; trivial)⟩

/-! ## C10 — positive buffers and consecutive-slot reservation -/

/-- Two grid positions `k * (i + b)` and `k2 * (i + b)` can never differ
by exactly `i` when both the width `i` and the buffer `b` are positive. -/
theorem mul_grid_ne {i b : Nat} (hi : 0 < i) (hb : 0 < b) (k k2 : Nat) :
    k2 * (i + b) ≠ k * (i + b) + i := by
  rcases le_or_lt k2 k with h | h
  · have h2 : k2 * (i + b) ≤ k * (i + b) := Nat.mul_le_mul_right _ h
    omega
  · have h2 : (k + 1) * (i + b) ≤ k2 * (i + b) := Nat.mul_le_mul_right _ h
    have h3 : (k + 1) * (i + b) = k * (i + b) + (i + b) := by ring
    omega

/-- Grid form of every generated slot: it sits at a cursor position of
some block of the selected timing. -/
theorem mem_gen_grid
    (config : ClinicConfig) (target : CalDate) (existing : List ApptIn)
    (filt : Option String) (u : Nat → String) (timing : DayTiming)
    (htim : get_timing_for_day config.clinicTiming target.weekday = some timing)
    (hcl : timing.closed = false) {s : Slot}
    (hs : s ∈ generate_free_slots_for_day config target existing filt u) :
    ∃ blk ∈ get_time_blocks_for_day timing,
      ∃ c, c ∈ cursorStarts (slot_interval config.appointmentConfig)
          config.appointmentConfig.bufferMins blk.1 blk.2 ∧
        s.startUtcTs = utc_ts target config.timezoneOffsetMin c ∧
        s.endUtcTs = utc_ts target config.timezoneOffsetMin
          (c + slot_interval config.appointmentConfig) := by
  unfold generate_free_slots_for_day at hs
  rw [htim] at hs
  simp only [hcl, Bool.false_eq_true, if_false] at hs
  split at hs
  · cases hs
  · rw [List.mem_insertionSort] at hs
    obtain ⟨s0, hs0, j, rfl⟩ := mem_attach_slot_ids hs
    obtain ⟨doc, -, hdoc⟩ := List.mem_flatMap.mp hs0
    unfold slots_for_doctor at hdoc
    obtain ⟨blk, hblk, hblkmem⟩ := List.mem_flatMap.mp hdoc
    obtain ⟨c, hc, rfl⟩ := mem_slots_for_block hblkmem
    exact ⟨blk, hblk, c, hc, rfl, rfl⟩

/-- With positive width and buffer and a strictly separated lunch, no
generated slot starts exactly where another one ends. -/
theorem gen_no_adjacent_starts
    (config : ClinicConfig) (target : CalDate) (existing : List ApptIn)
    (filt : Option String) (u : Nat → String) (timing : DayTiming)
    (htim : get_timing_for_day config.clinicTiming target.weekday = some timing)
    (hcl : timing.closed = false)
    (hb : 0 < config.appointmentConfig.bufferMins)
    (hi : 0 < slot_interval config.appointmentConfig)
    (hsep : lunch_separated timing) :
    ∀ s ∈ generate_free_slots_for_day config target existing filt u,
      ∀ t ∈ generate_free_slots_for_day config target existing filt u,
        t.startUtcTs ≠ s.endUtcTs := by
  intro s hs t ht heq
  obtain ⟨blkS, hblkS, cS, hcS, hsS, hsE⟩ :=
    mem_gen_grid config target existing filt u timing htim hcl hs
  obtain ⟨blkT, hblkT, cT, hcT, htS, htE⟩ :=
    mem_gen_grid config target existing filt u timing htim hcl ht
  rw [htS, hsE] at heq
  have hceq : cT = cS + slot_interval config.appointmentConfig := utc_ts_inj.mp heq
  obtain ⟨h1S, h2S, kS, hkS⟩ := mem_cursorStarts hcS
  obtain ⟨h1T, h2T, kT, hkT⟩ := mem_cursorStarts hcT
  rcases blocks_rel_strict hsep blkS hblkS blkT hblkT with heqb | hlt | hlt
  · rw [← heqb] at hkT
    rw [hkS] at hceq
    rw [hkT] at hceq
    rw [Nat.add_assoc] at hceq
    exact mul_grid_ne hi hb kS kT (Nat.add_left_cancel hceq)
  · omega
  · omega

/-- The chain scan never finds a run of two or more when no slot starts
exactly at the end of another: every chain stays at length at most one. -/
theorem reserve_aux_none_of_no_adjacent {L : List Slot}
    (hadj : ∀ s ∈ L, ∀ t ∈ L, t.startUtcTs ≠ s.endUtcTs) :
    ∀ (l rc : List Slot) (req : Nat), (∀ x ∈ l, x ∈ L) → (∀ x ∈ rc, x ∈ L) →
      rc.length ≤ 1 → 2 ≤ req → reserve_aux l rc req = none := by
  intro l
  induction l with
  | nil => intro rc req _ _ _ _; rfl
  | cons s rest ih =>
    intro rc req hl hrc hlen hreq
    have hsL : s ∈ L := hl s (List.mem_cons_self s rest)
    have hrest : ∀ x ∈ rest, x ∈ L := fun x hx => hl x (List.mem_cons_of_mem s hx)
    have hsingle : ∀ x ∈ [s], x ∈ L := by
      intro x hx
      rcases List.mem_singleton.mp hx with rfl
      exact hsL
    rw [reserve_aux.eq_def]
    by_cases hav : s.available
    · cases rc with
      | nil =>
        simp only [hav, if_true]
        rw [if_neg (by simp; omega)]
        exact ih [s] req hrest hsingle (by simp) hreq
      | cons prev rtail =>
        have hne : ¬ s.startUtcTs = prev.endUtcTs :=
          hadj prev (hrc prev (List.mem_cons_self prev rtail)) s hsL
        simp only [hav, if_true, hne, if_false]
        rw [if_neg (by simp; omega)]
        exact ih [s] req hrest hsingle (by simp) hreq
    · simp only [hav, if_false]
      rw [if_neg (by simp; omega)]
      exact ih [] req hrest (by intro x hx; cases hx) (by simp) hreq

/-- The head of a nonempty cursor list is the initial cursor. -/
theorem cursorStarts_aux_head {i b : Nat} :
    ∀ (fuel c e : Nat), cursorStarts_aux i b fuel c e = [] ∨
      ∃ tl, cursorStarts_aux i b fuel c e = c :: tl := by
  intro fuel c e
  cases fuel with
  | zero => exact Or.inl rfl
  | succ n =>
    rw [cursorStarts_aux]
    split
    · exact Or.inr ⟨_, rfl⟩
    · exact Or.inl rfl

/-- Consecutive cursor positions differ by exactly the slot width plus
the buffer: the generator inserts exactly the buffer gap between a slot
and the next one of the same block. -/
theorem chain_cursorStarts_aux {i b : Nat} :
    ∀ (fuel c e : Nat),
      (cursorStarts_aux i b fuel c e).Chain' (fun x y => y = x + i + b) := by
  intro fuel
  induction fuel with
  | zero => intro c e; exact List.chain'_nil
  | succ n ih =>
    intro c e
    rw [cursorStarts_aux]
    split
    · rw [List.chain'_cons']
      refine ⟨?_, ih (c + i + b) e⟩
      intro y hy
      rcases cursorStarts_aux_head n (c + i + b) e with hnil | ⟨tl, htl⟩
      · rw [hnil] at hy; cases hy
      · rw [htl] at hy
        simp only [List.head?_cons, Option.mem_def, Option.some.injEq] at hy
        omega
    · exact List.chain'_nil

/-- Degenerate but accepted configuration: lunch enabled with zero width,
buffer 5.  Block one ends at 09:15 exactly where block two begins. -/
def timingDegenerate : DayTiming :=
  { startMin := 540, endMin := 600,
    lunchBreak := some { enabled := true, lstart := 555, lend := 555 } }

def cfgDegenerateLunch : ClinicConfig :=
  { timezoneOffsetMin := 330,
    clinicTiming := { weekdays := some timingDegenerate },
    appointmentConfig := { slotIntervalMins := some 15, bufferMins := 5 },
    doctors := [⟨"d1"⟩] }

/-- C10 (counterexample): with a positive buffer (5 minutes) but a
zero-width lunch break, the block boundary puts two generated slots
back to back (09:00-09:15 and 09:15-09:30), so for a 30-minute service
(two base slots) `reserve_consecutive_slots` returns a run instead of
`none`. -/
theorem buffered_reservation_can_succeed :
    cfgDegenerateLunch.appointmentConfig.bufferMins = 5 ∧
    (30 : Nat) / 15 = 2 ∧
    (reserve_consecutive_slots
      (generate_free_slots_for_day cfgDegenerateLunch dateMon [] none uuidConst)
      30).isSome = true := by
  refine ⟨rfl, rfl, by decide⟩

/-- C10 (amended): the cursor advances in steps of exactly
`slot_width + buffer` minutes, so time-adjacent slots of one block are
separated by the buffer gap; and provided the lunch break, when enabled,
has positive width (so blocks do not touch), a positive buffer makes
`reserve_consecutive_slots` return `none` for every service requiring
two or more base slots (`duration // 15 ≥ 2`). -/
theorem buffered_slots_never_chain
    (config : ClinicConfig) (target : CalDate) (existing : List ApptIn)
    (filt : Option String) (u : Nat → String) (dur : Nat)
    (hb : 0 < config.appointmentConfig.bufferMins)
    (hi : 0 < slot_interval config.appointmentConfig)
    (hreq : 2 ≤ dur / 15)
    (hl : ∀ timing, get_timing_for_day config.clinicTiming target.weekday = some timing →
      lunch_separated timing) :
    (∀ c e : Nat,
      (cursorStarts (slot_interval config.appointmentConfig)
          config.appointmentConfig.bufferMins c e).Chain'
        (fun x y => y = x + slot_interval config.appointmentConfig +
          config.appointmentConfig.bufferMins)) ∧
    reserve_consecutive_slots
      (generate_free_slots_for_day config target existing filt u) dur = none := by
  constructor
  · intro c e
    exact chain_cursorStarts_aux _ c e
  · cases htim : get_timing_for_day config.clinicTiming target.weekday with
    | none =>
      have hgen : generate_free_slots_for_day config target existing filt u = [] := by
        unfold generate_free_slots_for_day
        rw [htim]
      rw [hgen]
      rfl
    | some timing =>
      by_cases hcl : timing.closed
      · have hgen : generate_free_slots_for_day config target existing filt u = [] := by
          unfold generate_free_slots_for_day
          rw [htim]
          simp [hcl]
        rw [hgen]
        rfl
      · rw [Bool.not_eq_true] at hcl
        have hadj := gen_no_adjacent_starts config target existing filt u timing htim hcl
          hb hi (hl timing htim)
        unfold reserve_consecutive_slots
        split
        · rfl
        · exact reserve_aux_none_of_no_adjacent hadj _ [] (dur / 15)
            (fun x hx => hx) (fun x hx => by cases hx) (by simp) hreq

/-- The lunch scenario clinic with a 5-minute buffer. -/
def cfgScenario5 : ClinicConfig :=
  { timezoneOffsetMin := 330,
    clinicTiming := { weekdays := some timingScenario },
    appointmentConfig := { slotIntervalMins := some 15, bufferMins := 5 },
    doctors := [⟨"d1"⟩] }

/-- Witness for `buffered_slots_never_chain`: a positive-width lunch,
buffer 5, 30-minute service. -/
theorem buffered_slots_never_chain_witness :
    0 < cfgScenario5.appointmentConfig.bufferMins ∧
    reserve_consecutive_slots
      (generate_free_slots_for_day cfgScenario5 dateMon [] none uuidConst) 30 = none :=
  ⟨by decide,
    (buffered_slots_never_chain cfgScenario5 dateMon [] none uuidConst 30
      (by decide) (by decide) (by decide)
      (fun t h => by cases Option.some.inj h; exact fun _ => by decide)).2⟩
